import Mathlib

/- Shallow embedding of the two Python scripts of the subdomain-finder
repository, `src/domain.py` and `src/domain1.py`.  External effects (DNS
lookups, the crt.sh HTTP query, subprocess launches) are modelled by a
`World` of outcomes that is passed explicitly; a Python function from
which an exception can escape is modelled as returning `Except PyExc`.
Printing to standard output carries no information used by any later
computation and is not modelled. -/

/- Python whitespace test used by `str.strip`, covering the ASCII
whitespace characters (further Unicode space characters, which no input
considered here contains, are omitted). -/
def pyIsSpace (c : Char) : Bool :=
  c == ' ' || c == '\t' || c == '\n' || c == '\r' || c == '\x0b' || c == '\x0c'

/- Removal of leading whitespace from a character list. -/
def dropLeadingWs : List Char → List Char
  | [] => []
  | c :: cs => if pyIsSpace c then dropLeadingWs cs else c :: cs

/- Removal of leading and trailing whitespace from a character list. -/
def stripList (l : List Char) : List Char :=
  (dropLeadingWs (dropLeadingWs l).reverse).reverse

/- Python `s.strip()`. -/
def pyStrip (s : String) : String :=
  String.mk (stripList s.data)

/- Test whether `pat` occurs at the start of the second list. -/
def matchesAt : List Char → List Char → Bool
  | [], _ => true
  | _ :: _, [] => false
  | p :: ps, c :: cs => p == c && matchesAt ps cs

/- Test whether `pat` occurs somewhere in the second list. -/
def hasSub (pat : List Char) : List Char → Bool
  | [] => pat.isEmpty
  | c :: cs => matchesAt pat (c :: cs) || hasSub pat cs

/- Python `pat in s`: substring containment. -/
def strIn (pat s : String) : Bool :=
  hasSub pat.data s.data

/- Worker for `pySplitComma`, accumulating the current piece reversed. -/
def splitCommaAux : List Char → List Char → List String
  | [], acc => [String.mk acc.reverse]
  | ',' :: rest, acc => String.mk acc.reverse :: splitCommaAux rest []
  | c :: rest, acc => splitCommaAux rest (c :: acc)

/- Python `s.split(',')`; empty pieces are kept and the empty string
splits to a one-element list holding the empty string. -/
def pySplitComma (s : String) : List String :=
  splitCommaAux s.data []

/- Line-boundary characters recognised by Python `str.splitlines`. -/
def isLineBoundary (c : Char) : Bool :=
  c == '\n' || c == '\r' || c == '\x0b' || c == '\x0c' ||
  c == '\x1c' || c == '\x1d' || c == '\x1e' || c == '\x85' ||
  c == '\u2028' || c == '\u2029'

/- Worker for `pySplitlines`; a "\r\n" pair counts as one boundary. -/
def splitlinesAux : List Char → List Char → List String
  | [], [] => []
  | [], acc => [String.mk acc.reverse]
  | '\r' :: '\n' :: rest, acc => String.mk acc.reverse :: splitlinesAux rest []
  | c :: rest, acc =>
    if isLineBoundary c then String.mk acc.reverse :: splitlinesAux rest []
    else splitlinesAux rest (c :: acc)

/- Python `s.splitlines()`: terminators are removed, a trailing terminator
produces no empty final line, interior empty lines are kept. -/
def pySplitlines (s : String) : List String :=
  splitlinesAux s.data []

/- Outcome of one `dns.resolver` lookup of one name for record type 'A'.
The scripts handle `NoAnswer`, `NXDOMAIN` and `LifetimeTimeout`; any other
exception raised by the resolver (for example `dns.resolver.NoNameservers`
when every nameserver answers with a failure) escapes their `try` blocks,
which is what `otherExc` stands for.  `success` implies a non-empty answer
set, since dnspython raises `NoAnswer` instead of returning none. -/
inductive DnsOutcome
  | success
  | noAnswer
  | nxdomain
  | timeout
  | otherExc
deriving DecidableEq, Repr

/- One JSON record of a crt.sh response body.  `name_value = none` models
a record from which `cert['name_value']` cannot be read as a string
(missing key, or a value without `split`): the access raises and nothing
in `get_crt_sh_subdomains` catches it. -/
structure CrtRecord where
  name_value : Option String
deriving DecidableEq, Repr

/- Body of a crt.sh HTTP response, only inspected on status 200.
`malformed` is a body `response.json()` cannot decode: requests raises its
`JSONDecodeError`, a subclass of `RequestException`, which the script
catches.  `illShaped` is a body that decodes but is not an array of
objects, so iterating it or subscripting its elements raises an error the
script does not catch. -/
inductive CrtBody
  | malformed
  | illShaped
  | records (rs : List CrtRecord)
deriving DecidableEq, Repr

/- Outcome of `requests.get` on the crt.sh URL: either the request itself
raised a `RequestException` (caught by the script), or a response with a
status code and a body came back. -/
inductive CrtResult
  | requestExc
  | response (status : Nat) (body : CrtBody)
deriving DecidableEq, Repr

/- Outcome of one `subprocess.run` call: either the process was spawned
and completed with the given exit code and captured standard output
(`check` is not set, so a failing exit status raises nothing), or spawning
raised an exception such as `FileNotFoundError`, which the runner catches
together with every other `Exception`. -/
inductive ToolOutcome
  | ran (exitCode : Nat) (stdout : String)
  | exc
deriving DecidableEq, Repr

/- The behaviour of the external world during one run: `resolverResolve`
answers the dedicated resolver built in `get_subdomains`, and
`defaultResolve` answers the module-level `dns.resolver.resolve` used by
`brute_force_subdomains`. -/
structure World where
  resolverResolve : String → DnsOutcome
  defaultResolve : String → DnsOutcome
  crt : CrtResult
  sublist3r : ToolOutcome
  amass : ToolOutcome
  assetfinder : ToolOutcome

/- An exception escaping one of the modelled Python functions. -/
inductive PyExc
  | uncaught
deriving DecidableEq, Repr

/- What `analyze_domain_and_subdomains` prints after "Main domain:":
either "Subdomains found:" followed by the listed names, or the line
"No subdomains found.". -/
inductive Report
  | found (names : List String)
  | noSubdomains
deriving DecidableEq, Repr

/- The fixed candidate label list (domain.py line 11, domain1.py line 10). -/
def known_subdomains : List String :=
  ["www", "ftp", "mail", "blog", "dev", "api", "shop", "m", "web", "app", "news", "test"]

/- `get_subdomains` of domain.py (lines 18-36): resolve the apex domain
with a dedicated resolver; each answer record adds `domain` itself to the
set, so a successful lookup yields exactly {domain}. -/
def get_subdomains (w : World) (domain : String) : Except PyExc (Finset String) :=
  match w.resolverResolve domain with
  | .success => .ok {domain}
  | .noAnswer => .ok ∅
  | .nxdomain => .ok ∅
  | .timeout => .ok ∅
  | .otherExc => .error .uncaught

/- The loop of `brute_force_subdomains` (domain.py lines 41-51): the first
DNS exception outside the handled three aborts the whole function. -/
def brute_loop (w : World) (domain : String) : List String → Finset String → Except PyExc (Finset String)
  | [], subdomains => .ok subdomains
  | sub :: rest, subdomains =>
    match w.defaultResolve (sub ++ "." ++ domain) with
    | .success => brute_loop w domain rest (insert (sub ++ "." ++ domain) subdomains)
    | .noAnswer => brute_loop w domain rest subdomains
    | .nxdomain => brute_loop w domain rest subdomains
    | .timeout => brute_loop w domain rest subdomains
    | .otherExc => .error .uncaught

/- `brute_force_subdomains` of domain.py (lines 38-52). -/
def brute_force_subdomains (w : World) (domain : String) : Except PyExc (Finset String) :=
  brute_loop w domain known_subdomains ∅

/- The request URL built on domain.py line 56. -/
def crt_sh_url (domain : String) : String :=
  "https://crt.sh/?q=%25." ++ domain ++ "&output=json"

/- The list comprehension of domain.py line 66: split `name_value` at
commas, keep the pieces containing `domain` as a substring (tested on the
unstripped piece), and strip each kept piece. -/
def crt_entries (domain nv : String) : List String :=
  ((pySplitComma nv).filter (fun s => strIn domain s)).map pyStrip

/- The record loop of `get_crt_sh_subdomains` (domain.py lines 63-66). -/
def crt_loop (domain : String) : List CrtRecord → Finset String → Except PyExc (Finset String)
  | [], subdomains => .ok subdomains
  | cert :: rest, subdomains =>
    match cert.name_value with
    | none => .error .uncaught
    | some nv => crt_loop domain rest (subdomains ∪ (crt_entries domain nv).toFinset)

/- `get_crt_sh_subdomains` of domain.py (lines 54-72). -/
def get_crt_sh_subdomains (w : World) (domain : String) : Except PyExc (Finset String) :=
  match w.crt with
  | .requestExc => .ok ∅
  | .response status body =>
    if status = 200 then
      match body with
      | .malformed => .ok ∅
      | .illShaped => .error .uncaught
      | .records rs => crt_loop domain rs ∅
    else .ok ∅

/- `run_sublist3r` of domain.py (lines 74-83): on a spawned process the
set of all stdout lines is returned whatever the exit code; on a spawn
exception the empty set. -/
def run_sublist3r (w : World) (_domain : String) : Finset String :=
  match w.sublist3r with
  | .ran _ stdout => (pySplitlines stdout).toFinset
  | .exc => ∅

/- `run_amass` of domain.py (lines 85-94). -/
def run_amass (w : World) (_domain : String) : Finset String :=
  match w.amass with
  | .ran _ stdout => (pySplitlines stdout).toFinset
  | .exc => ∅

/- `run_assetfinder` of domain.py (lines 96-105). -/
def run_assetfinder (w : World) (_domain : String) : Finset String :=
  match w.assetfinder with
  | .ran _ stdout => (pySplitlines stdout).toFinset
  | .exc => ∅

/- Lexicographic comparison of character lists by code point, the order
Python uses to compare strings. -/
def lebChars : List Char → List Char → Bool
  | [], _ => true
  | _ :: _, [] => false
  | a :: as, b :: bs => if a < b then true else if b < a then false else lebChars as bs

/- Python `s <= t` on strings. -/
def pyStrLe (s t : String) : Bool :=
  lebChars s.data t.data

theorem lebChars_iff : ∀ as bs : List Char, lebChars as bs = true ↔ ¬ List.lt bs as
  | [], bs =>
    Iff.intro (fun _ h => nomatch h) (fun _ => rfl)
  | a :: as, [] =>
    Iff.intro (fun h => nomatch h) (fun h => absurd (List.lt.nil a as) h)
  | a :: as, b :: bs => by
    simp only [lebChars]
    by_cases hab : a < b
    · simp only [if_pos hab]
      constructor
      · intro _ h
        cases h with
        | head _ _ hba => exact absurd hab (lt_asymm hba)
        | tail h1 h2 _ => exact absurd hab h2
      · intro _
        trivial
    · simp only [if_neg hab]
      by_cases hba : b < a
      · simp only [if_pos hba]
        constructor
        · intro h
          exact nomatch h
        · intro h
          exact absurd (List.lt.head bs as hba) h
      · simp only [if_neg hba]
        rw [lebChars_iff as bs]
        constructor
        · intro h hl
          cases hl with
          | head _ _ h2 => exact hba h2
          | tail _ _ htl => exact h htl
        · intro h hbs
          exact h (List.lt.tail hba hab hbs)

/- The hand-rolled comparison agrees with the string order of the
library, so sorting below is by the lexicographic order. -/
theorem pyStrLe_iff (s t : String) : pyStrLe s t = true ↔ s ≤ t := by
  rw [String.le_iff_toList_le, ← not_lt]
  exact (lebChars_iff s.data t.data).trans
    (not_congr (List.lt_iff_lex_lt t.data s.data))

/- A decision procedure for the string order that the kernel can
evaluate; registered with high priority so that sorting and `decide`
use it instead of the library procedure. -/
instance (priority := 2000) strDecLe : ∀ s t : String, Decidable (s ≤ t) := fun s t =>
  decidable_of_iff (pyStrLe s t = true) (pyStrLe_iff s t)

/- Sorted enumeration of a multiset of strings, computed by insertion
sort; well defined because a linear order admits exactly one sorted
arrangement of any multiset. -/
def msort (m : Multiset String) : List String :=
  Quot.liftOn m (fun l => List.insertionSort (· ≤ ·) l) fun l1 l2 h =>
    List.eq_of_perm_of_sorted
      ((List.perm_insertionSort _ l1).trans ((h : l1.Perm l2).trans (List.perm_insertionSort _ l2).symm))
      (List.sorted_insertionSort _ l1) (List.sorted_insertionSort _ l2)

/- Python `sorted()` applied to a set of strings: the enumeration of its
elements sorted by the lexicographic string order. -/
def pysorted (s : Finset String) : List String :=
  msort s.val

/- `analyze_domain_and_subdomains` of domain.py (lines 107-138): the six
sources in program order, each one's result united into the aggregate,
then the report. -/
def analyze_domain_and_subdomains (w : World) (domain : String) : Except PyExc Report :=
  match get_subdomains w domain with
  | .error e => .error e
  | .ok s1 =>
    match brute_force_subdomains w domain with
    | .error e => .error e
    | .ok s2 =>
      match get_crt_sh_subdomains w domain with
      | .error e => .error e
      | .ok s3 =>
        let subdomains := s1 ∪ s2 ∪ s3 ∪ run_sublist3r w domain ∪
          run_amass w domain ∪ run_assetfinder w domain
        if subdomains = ∅ then .ok .noSubdomains
        else .ok (.found (pysorted subdomains))

namespace Domain1

/- `get_subdomains` of domain1.py (lines 17-35), translated separately;
the body is character-identical to the one in domain.py. -/
def get_subdomains (w : World) (domain : String) : Except PyExc (Finset String) :=
  match w.resolverResolve domain with
  | .success => .ok {domain}
  | .noAnswer => .ok ∅
  | .nxdomain => .ok ∅
  | .timeout => .ok ∅
  | .otherExc => .error .uncaught

/- The loop of `brute_force_subdomains` of domain1.py (lines 40-50). -/
def brute_loop (w : World) (domain : String) : List String → Finset String → Except PyExc (Finset String)
  | [], subdomains => .ok subdomains
  | sub :: rest, subdomains =>
    match w.defaultResolve (sub ++ "." ++ domain) with
    | .success => brute_loop w domain rest (insert (sub ++ "." ++ domain) subdomains)
    | .noAnswer => brute_loop w domain rest subdomains
    | .nxdomain => brute_loop w domain rest subdomains
    | .timeout => brute_loop w domain rest subdomains
    | .otherExc => .error .uncaught

/- `brute_force_subdomains` of domain1.py (lines 37-51). -/
def brute_force_subdomains (w : World) (domain : String) : Except PyExc (Finset String) :=
  brute_loop w domain known_subdomains ∅

/- The record loop of `get_crt_sh_subdomains` of domain1.py (lines 62-65). -/
def crt_loop (domain : String) : List CrtRecord → Finset String → Except PyExc (Finset String)
  | [], subdomains => .ok subdomains
  | cert :: rest, subdomains =>
    match cert.name_value with
    | none => .error .uncaught
    | some nv => crt_loop domain rest (subdomains ∪ (crt_entries domain nv).toFinset)

/- `get_crt_sh_subdomains` of domain1.py (lines 53-71). -/
def get_crt_sh_subdomains (w : World) (domain : String) : Except PyExc (Finset String) :=
  match w.crt with
  | .requestExc => .ok ∅
  | .response status body =>
    if status = 200 then
      match body with
      | .malformed => .ok ∅
      | .illShaped => .error .uncaught
      | .records rs => crt_loop domain rs ∅
    else .ok ∅

/- `analyze_domain_and_subdomains` of domain1.py (lines 73-95): only the
three first sources exist in this file, there are no tool runners. -/
def analyze_domain_and_subdomains (w : World) (domain : String) : Except PyExc Report :=
  match Domain1.get_subdomains w domain with
  | .error e => .error e
  | .ok s1 =>
    match Domain1.brute_force_subdomains w domain with
    | .error e => .error e
    | .ok s2 =>
      match Domain1.get_crt_sh_subdomains w domain with
      | .error e => .error e
      | .ok s3 =>
        let subdomains := s1 ∪ s2 ∪ s3
        if subdomains = ∅ then .ok .noSubdomains
        else .ok (.found (pysorted subdomains))

end Domain1

example : pySplitlines "a\n\nb\n" = ["a", "", "b"] := rfl

example : pySplitComma "x, y" = ["x", " y"] := rfl

example : pyStrip "  a b  " = "a b" := rfl

example : strIn "example.com" "evil-example.com.attacker.net" = true := rfl

example : strIn "example.com" "other.org" = false := rfl

example : ({"a", "b"} : Finset String) = {"b", "a"} := by decide

example : (if ({"a"} : Finset String) = ∅ then 1 else 2) = 2 := by decide

example : pysorted {"www.x", "api.x", "shop.x"} = ["api.x", "shop.x", "www.x"] := by decide

/- A non-empty result of `dropLeadingWs` starts with a non-whitespace
character. -/
theorem dropLeadingWs_head : ∀ (l : List Char) (c : Char) (cs : List Char),
    dropLeadingWs l = c :: cs → pyIsSpace c = false
  | [], _, _, h => nomatch h
  | a :: as, c, cs, h => by
    by_cases ha : pyIsSpace a = true
    · rw [dropLeadingWs, if_pos ha] at h
      exact dropLeadingWs_head as c cs h
    · rw [dropLeadingWs, if_neg ha] at h
      injection h with h1 _
      subst h1
      simp only [Bool.not_eq_true] at ha
      exact ha

/- A list whose head is not whitespace is unchanged by `dropLeadingWs`. -/
theorem dropLeadingWs_eq_self : ∀ (l : List Char),
    (∀ c cs, l = c :: cs → pyIsSpace c = false) → dropLeadingWs l = l
  | [], _ => rfl
  | a :: as, h => by
    have ha := h a as rfl
    simp [dropLeadingWs, ha]

/- `dropLeadingWs` only removes a prefix of the list. -/
theorem dropLeadingWs_suffix : ∀ l : List Char, ∃ w, l = w ++ dropLeadingWs l
  | [] => ⟨[], rfl⟩
  | a :: as => by
    by_cases ha : pyIsSpace a = true
    · obtain ⟨w, hw⟩ := dropLeadingWs_suffix as
      refine ⟨a :: w, ?_⟩
      rw [dropLeadingWs, if_pos ha, List.cons_append]
      exact congrArg (a :: ·) hw
    · refine ⟨[], ?_⟩
      rw [dropLeadingWs, if_neg ha]
      rfl

/- A stripped list starts with a non-whitespace character, so stripping
its front again changes nothing. -/
theorem dropLeadingWs_stripList (l : List Char) :
    dropLeadingWs (stripList l) = stripList l := by
  apply dropLeadingWs_eq_self
  intro c cs h
  obtain ⟨w, hw⟩ := dropLeadingWs_suffix (dropLeadingWs l).reverse
  have hl : dropLeadingWs l = (dropLeadingWs (dropLeadingWs l).reverse).reverse ++ w.reverse := by
    have h2 := congrArg List.reverse hw
    rwa [List.reverse_append, List.reverse_reverse] at h2
  unfold stripList at h
  rw [h] at hl
  exact dropLeadingWs_head l c (cs ++ w.reverse) hl

/- Python `strip` is idempotent. -/
theorem stripList_idem (l : List Char) : stripList (stripList l) = stripList l := by
  have hA : dropLeadingWs (stripList l).reverse = (stripList l).reverse := by
    have he : (stripList l).reverse = dropLeadingWs (dropLeadingWs l).reverse := by
      unfold stripList
      rw [List.reverse_reverse]
    rw [he]
    apply dropLeadingWs_eq_self
    intro c cs h
    exact dropLeadingWs_head (dropLeadingWs l).reverse c cs h
  conv_lhs => rw [stripList]
  rw [dropLeadingWs_stripList l, hA, List.reverse_reverse]

/- Python `strip` on strings is idempotent. -/
theorem pyStrip_idem (s : String) : pyStrip (pyStrip s) = pyStrip s :=
  congrArg String.mk (stripList_idem s.data)

deriving instance DecidableEq for Except

/- The sorted enumeration is sorted with respect to the string order. -/
theorem msort_sorted (m : Multiset String) : (msort m).Sorted (· ≤ ·) :=
  Quot.inductionOn m fun l => List.sorted_insertionSort _ l

/- The sorted enumeration carries exactly the elements of the multiset. -/
theorem msort_coe (m : Multiset String) : (msort m : Multiset String) = m :=
  Quot.inductionOn m fun l => Quot.sound (List.perm_insertionSort _ l)

theorem pysorted_sorted (s : Finset String) : (pysorted s).Sorted (· ≤ ·) :=
  msort_sorted s.val

theorem pysorted_nodup (s : Finset String) : (pysorted s).Nodup := by
  have h := s.nodup
  rw [← msort_coe s.val] at h
  exact Multiset.coe_nodup.mp h

theorem pysorted_mem (s : Finset String) (x : String) : x ∈ pysorted s ↔ x ∈ s := by
  unfold pysorted
  rw [← Multiset.mem_coe, msort_coe s.val]
  exact Iff.rfl

/- Membership in the entries a single `name_value` field contributes. -/
theorem mem_crt_entries {domain nv x : String} :
    x ∈ crt_entries domain nv ↔
      ∃ e ∈ pySplitComma nv, strIn domain e = true ∧ x = pyStrip e := by
  simp only [crt_entries, List.mem_map, List.mem_filter]
  constructor
  · rintro ⟨e, ⟨he, hf⟩, rfl⟩
    exact ⟨e, he, hf, rfl⟩
  · rintro ⟨e, he, hf, rfl⟩
    exact ⟨e, ⟨he, hf⟩, rfl⟩

/- What the record loop of the certificate-log client accumulates. -/
theorem crt_loop_mem (domain : String) : ∀ (rs : List CrtRecord) (acc S : Finset String),
    crt_loop domain rs acc = .ok S →
    ∀ x, x ∈ S ↔ x ∈ acc ∨ ∃ r ∈ rs, ∃ nv, r.name_value = some nv ∧ x ∈ crt_entries domain nv
  | [], acc, S, h, x => by
    cases h
    simp
  | cert :: rest, acc, S, h, x => by
    cases hnv : cert.name_value with
    | none =>
      rw [crt_loop, hnv] at h
      exact nomatch h
    | some nv =>
      rw [crt_loop, hnv] at h
      have ih := crt_loop_mem domain rest (acc ∪ (crt_entries domain nv).toFinset) S h x
      rw [ih]
      simp only [Finset.mem_union, List.mem_toFinset, List.mem_cons, exists_eq_or_imp, hnv,
        Option.some.injEq, exists_eq_left, exists_eq_left']
      constructor
      · rintro ((ha | he) | hr)
        · exact Or.inl ha
        · exact Or.inr (Or.inl he)
        · exact Or.inr (Or.inr hr)
      · rintro (ha | he | hr)
        · exact Or.inl (Or.inl ha)
        · exact Or.inl (Or.inr he)
        · exact Or.inr hr

/- What the label loop of the dictionary prober accumulates. -/
theorem brute_loop_mem (w : World) (domain : String) :
    ∀ (l : List String) (acc S : Finset String),
    brute_loop w domain l acc = .ok S →
    ∀ x, x ∈ S ↔ x ∈ acc ∨ ∃ sub ∈ l, x = sub ++ "." ++ domain ∧
      w.defaultResolve (sub ++ "." ++ domain) = .success
  | [], acc, S, h, x => by
    cases h
    simp
  | sub :: rest, acc, S, h, x => by
    cases hr : w.defaultResolve (sub ++ "." ++ domain) with
    | success =>
      rw [brute_loop, hr] at h
      have ih := brute_loop_mem w domain rest (insert (sub ++ "." ++ domain) acc) S h x
      rw [ih]
      simp only [Finset.mem_insert, List.mem_cons, exists_eq_or_imp, hr, and_true]
      constructor
      · rintro ((he | ha) | hrest)
        · exact Or.inr (Or.inl he)
        · exact Or.inl ha
        · exact Or.inr (Or.inr hrest)
      · rintro (ha | he | hrest)
        · exact Or.inl (Or.inr ha)
        · exact Or.inl (Or.inl he)
        · exact Or.inr hrest
    | noAnswer =>
      rw [brute_loop, hr] at h
      have ih := brute_loop_mem w domain rest acc S h x
      rw [ih]
      simp [List.mem_cons, exists_eq_or_imp, hr]
    | nxdomain =>
      rw [brute_loop, hr] at h
      have ih := brute_loop_mem w domain rest acc S h x
      rw [ih]
      simp [List.mem_cons, exists_eq_or_imp, hr]
    | timeout =>
      rw [brute_loop, hr] at h
      have ih := brute_loop_mem w domain rest acc S h x
      rw [ih]
      simp [List.mem_cons, exists_eq_or_imp, hr]
    | otherExc =>
      rw [brute_loop, hr] at h
      exact nomatch h

/- A crt.sh body on which the script's record loop raises nothing: the
body either fails to decode (caught), or is an array of objects that each
carry a `name_value` string. -/
def CrtBody.WellShaped : CrtBody → Prop
  | .malformed => True
  | .illShaped => False
  | .records rs => ∀ cert ∈ rs, cert.name_value ≠ none

/- A world in which every failure of the external world is of a kind the
scripts catch: DNS lookups only fail with `NoAnswer`, `NXDOMAIN` or
`LifetimeTimeout`, and a 200 certificate-log response is well shaped.
Tool outcomes are unconstrained: the runners catch every `Exception`. -/
def World.Handled (w : World) : Prop :=
  (∀ name, w.resolverResolve name ≠ .otherExc) ∧
  (∀ name, w.defaultResolve name ≠ .otherExc) ∧
  ∀ body, w.crt = .response 200 body → body.WellShaped

theorem get_subdomains_ok (w : World) (d : String) (h : w.resolverResolve d ≠ .otherExc) :
    ∃ S, get_subdomains w d = .ok S := by
  unfold get_subdomains
  cases hr : w.resolverResolve d
  · exact ⟨_, rfl⟩
  · exact ⟨_, rfl⟩
  · exact ⟨_, rfl⟩
  · exact ⟨_, rfl⟩
  · exact absurd hr h

theorem brute_loop_ok (w : World) (d : String) (h : ∀ name, w.defaultResolve name ≠ .otherExc) :
    ∀ (l : List String) (acc : Finset String), ∃ S, brute_loop w d l acc = .ok S
  | [], acc => ⟨acc, rfl⟩
  | sub :: rest, acc => by
    rw [brute_loop]
    cases hr : w.defaultResolve (sub ++ "." ++ d)
    · exact brute_loop_ok w d h rest _
    · exact brute_loop_ok w d h rest _
    · exact brute_loop_ok w d h rest _
    · exact brute_loop_ok w d h rest _
    · exact absurd hr (h _)

theorem crt_loop_ok (d : String) : ∀ (rs : List CrtRecord),
    (∀ cert ∈ rs, cert.name_value ≠ none) →
    ∀ acc, ∃ S, crt_loop d rs acc = .ok S
  | [], _, acc => ⟨acc, rfl⟩
  | cert :: rest, h, acc => by
    rw [crt_loop]
    cases hnv : cert.name_value with
    | none => exact absurd hnv (h cert (by simp))
    | some nv => exact crt_loop_ok d rest (fun c hc => h c (List.mem_cons_of_mem cert hc)) _

theorem get_crt_ok (w : World) (d : String)
    (h : ∀ body, w.crt = .response 200 body → body.WellShaped) :
    ∃ S, get_crt_sh_subdomains w d = .ok S := by
  unfold get_crt_sh_subdomains
  cases hc : w.crt with
  | requestExc => exact ⟨∅, rfl⟩
  | response st body =>
    by_cases hst : st = 200
    · subst hst
      have hb := h body hc
      cases body with
      | malformed => exact ⟨∅, by simp⟩
      | illShaped => exact absurd hb (by simp [CrtBody.WellShaped])
      | records rs =>
        obtain ⟨S, hS⟩ := crt_loop_ok d rs hb ∅
        exact ⟨S, by simpa using hS⟩
    · exact ⟨∅, by simp [hst]⟩

/- The two files define `get_subdomains` by the same text. -/
theorem d1_get_subdomains_eq (w : World) (d : String) :
    Domain1.get_subdomains w d = get_subdomains w d := by
  unfold Domain1.get_subdomains get_subdomains
  cases w.resolverResolve d <;> rfl

theorem d1_brute_loop_eq (w : World) (d : String) : ∀ (l : List String) (acc : Finset String),
    Domain1.brute_loop w d l acc = brute_loop w d l acc
  | [], _ => rfl
  | sub :: rest, acc => by
    rw [Domain1.brute_loop, brute_loop]
    cases w.defaultResolve (sub ++ "." ++ d)
    · exact d1_brute_loop_eq w d rest _
    · exact d1_brute_loop_eq w d rest _
    · exact d1_brute_loop_eq w d rest _
    · exact d1_brute_loop_eq w d rest _
    · rfl

/- The two files define `brute_force_subdomains` by the same text. -/
theorem d1_brute_force_eq (w : World) (d : String) :
    Domain1.brute_force_subdomains w d = brute_force_subdomains w d :=
  d1_brute_loop_eq w d known_subdomains ∅

theorem d1_crt_loop_eq (d : String) : ∀ (rs : List CrtRecord) (acc : Finset String),
    Domain1.crt_loop d rs acc = crt_loop d rs acc
  | [], _ => rfl
  | cert :: rest, acc => by
    rw [Domain1.crt_loop, crt_loop]
    cases cert.name_value
    · rfl
    · exact d1_crt_loop_eq d rest _

/- The two files define `get_crt_sh_subdomains` by the same text. -/
theorem d1_crt_eq (w : World) (d : String) :
    Domain1.get_crt_sh_subdomains w d = get_crt_sh_subdomains w d := by
  unfold Domain1.get_crt_sh_subdomains get_crt_sh_subdomains
  cases w.crt with
  | requestExc => rfl
  | response st body =>
    by_cases hst : st = 200
    · subst hst
      cases body with
      | malformed => rfl
      | illShaped => rfl
      | records rs => simpa using d1_crt_loop_eq d rs ∅
    · simp [hst]

/- A world in which every source contributes nothing and no source
raises, used to instantiate the theorems below. -/
def baseWorld : World where
  resolverResolve := fun _ => .noAnswer
  defaultResolve := fun _ => .nxdomain
  crt := .requestExc
  sublist3r := .exc
  amass := .exc
  assetfinder := .exc

/- World for the C1 counterexample: every DNS lookup of the dedicated
resolver raises an exception outside the three handled classes (for
example `dns.resolver.NoNameservers`). -/
def w1c : World where
  resolverResolve := fun _ => .otherExc
  defaultResolve := fun _ => .nxdomain
  crt := .requestExc
  sublist3r := .exc
  amass := .exc
  assetfinder := .exc

/-- C1, counterexample: `analyze_domain_and_subdomains` does not survive
every behaviour of the external world.  In the world `w1c`, where the
apex DNS lookup fails with an exception outside NoAnswer, NXDOMAIN and
LifetimeTimeout (such as `dns.resolver.NoNameservers`), the exception
escapes `get_subdomains` and aborts the analysis, so no report is
produced. -/
theorem C1_counterexample :
    analyze_domain_and_subdomains w1c "example.com" = .error .uncaught := rfl

/-- C1, amended: for every domain and every handled world — one whose
DNS lookups fail only with the three caught exception classes and whose
HTTP-200 certificate-log body, if any, is either undecodable JSON or an
array of records each carrying a `name_value` string — the analysis
raises nothing, terminates, and produces a report. -/
theorem C1_analyze_ok_of_handled (w : World) (d : String) (h : w.Handled) :
    (analyze_domain_and_subdomains w d).isOk = true := by
  obtain ⟨h1, h2, h3⟩ := h
  obtain ⟨S1, e1⟩ := get_subdomains_ok w d (h1 d)
  obtain ⟨S2, e2⟩ := brute_loop_ok w d h2 known_subdomains ∅
  obtain ⟨S3, e3⟩ := get_crt_ok w d h3
  have e2' : brute_force_subdomains w d = .ok S2 := e2
  unfold analyze_domain_and_subdomains
  simp only [e1, e2', e3]
  split <;> rfl

/-- Witness for C1 at the concrete world `baseWorld` and the domain
"example.com": the hypotheses hold there and the analysis returns a
report. -/
theorem C1_witness : (analyze_domain_and_subdomains baseWorld "example.com").isOk = true :=
  C1_analyze_ok_of_handled baseWorld "example.com"
    ⟨(fun _ h => nomatch h), (fun _ h => nomatch h), (fun _ h => nomatch h)⟩

/- World for the C2 counterexample: crt.sh answers 200 with a JSON array
holding one object without a `name_value` field. -/
def w2c : World where
  resolverResolve := fun _ => .noAnswer
  defaultResolve := fun _ => .nxdomain
  crt := .response 200 (.records [⟨none⟩])
  sublist3r := .exc
  amass := .exc
  assetfinder := .exc

/-- C2, counterexample: a parse failure is not always caught.  In the
world `w2c` the certificate-log body decodes to an array whose single
record has no `name_value` field; `cert['name_value']` raises a KeyError
that `get_crt_sh_subdomains` does not catch, so the client raises
instead of returning the empty set. -/
theorem C2_counterexample :
    get_crt_sh_subdomains w2c "example.com" = .error .uncaught := rfl

/-- C2, amended: on a network error (`RequestException`), on any non-200
status, or on an HTTP-200 body that fails to decode as JSON (requests
raises its `JSONDecodeError`, a `RequestException` subclass), the
certificate-log client logs the failure and returns the empty set, so
such failures are never fatal; but an HTTP-200 body that decodes to an
unexpected shape raises an uncaught exception. -/
theorem C2_crt_handled_failures (w : World) (d : String)
    (h : w.crt = .requestExc ∨ (∃ st body, w.crt = .response st body ∧ st ≠ 200) ∨
      w.crt = .response 200 .malformed) :
    get_crt_sh_subdomains w d = .ok ∅ := by
  unfold get_crt_sh_subdomains
  rcases h with h | ⟨st, body, h, hst⟩ | h
  · rw [h]
  · rw [h]
    simp [hst]
  · rw [h]
    rfl

/- World for the C2 witness: crt.sh answers with status 500. -/
def w2w : World where
  resolverResolve := fun _ => .noAnswer
  defaultResolve := fun _ => .nxdomain
  crt := .response 500 (.records [])
  sublist3r := .exc
  amass := .exc
  assetfinder := .exc

/-- Witness for C2 at the concrete world `w2w`, whose certificate-log
response has status 500: the client returns the empty set. -/
theorem C2_witness : get_crt_sh_subdomains w2w "example.com" = .ok ∅ :=
  C2_crt_handled_failures w2w "example.com"
    (Or.inr (Or.inl ⟨500, .records [], rfl, by decide⟩))

/- World of the C3 scenario: the apex lookup returns nothing, the
dictionary probe resolves exactly api.example.com and www.example.com,
crt.sh returns records for www.example.com and shop.example.com, and no
external tool contributes anything. -/
def w3 : World where
  resolverResolve := fun _ => .noAnswer
  defaultResolve := fun name =>
    if name = "api.example.com" then .success
    else if name = "www.example.com" then .success
    else .nxdomain
  crt := .response 200 (.records [⟨some "www.example.com"⟩, ⟨some "shop.example.com"⟩])
  sublist3r := .exc
  amass := .exc
  assetfinder := .exc

/-- C3: in the scenario world `w3` for the domain "example.com" — DNS
source empty, dictionary probe resolving only api and www, certificate
log contributing www and shop, no external tools — the final report is
exactly the sorted list [api.example.com, shop.example.com,
www.example.com]. -/
theorem C3_scenario :
    analyze_domain_and_subdomains w3 "example.com" =
      .ok (.found ["api.example.com", "shop.example.com", "www.example.com"]) := rfl

/-- C4: for every domain and every HTTP-200 certificate-log response
whose records all carry a `name_value` string, the candidate set of
`get_crt_sh_subdomains` is exactly the set of stripped comma-separated
entries of those fields that contain the domain as a substring; and for
domain "example.com" the field "evil-example.com.attacker.net,
api.example.com" contributes both evil-example.com.attacker.net and
api.example.com. -/
theorem C4_crt_extraction :
    (∀ (w : World) (d : String) (nvs : List String) (S : Finset String),
        w.crt = .response 200 (.records (nvs.map fun nv => ⟨some nv⟩)) →
        get_crt_sh_subdomains w d = .ok S →
        ∀ x, x ∈ S ↔ ∃ nv ∈ nvs, ∃ e ∈ pySplitComma nv, strIn d e = true ∧ x = pyStrip e) ∧
    "evil-example.com.attacker.net" ∈
      crt_entries "example.com" "evil-example.com.attacker.net, api.example.com" ∧
    "api.example.com" ∈
      crt_entries "example.com" "evil-example.com.attacker.net, api.example.com" := by
  refine ⟨?_, by decide, by decide⟩
  intro w d nvs S hw h x
  rw [get_crt_sh_subdomains, hw] at h
  simp only [if_pos rfl] at h
  constructor
  · intro hx
    rcases (crt_loop_mem d _ ∅ S h x).mp hx with hempty | ⟨r, hr, nv, hnv, he⟩
    · exact absurd hempty (Finset.not_mem_empty x)
    · rcases List.mem_map.mp hr with ⟨nv0, hnv0, rfl⟩
      have hinj : nv0 = nv := Option.some.inj hnv
      subst hinj
      rcases mem_crt_entries.mp he with ⟨e, he1, he2, he3⟩
      exact ⟨nv0, hnv0, e, he1, he2, he3⟩
  · rintro ⟨nv, hnv, e, he, hs, rfl⟩
    apply (crt_loop_mem d _ ∅ S h (pyStrip e)).mpr
    refine Or.inr ⟨⟨some nv⟩, List.mem_map_of_mem _ hnv, nv, rfl, ?_⟩
    exact mem_crt_entries.mpr ⟨e, he, hs, rfl⟩

/- World for the C4 witness: one certificate record whose `name_value`
is www.example.com. -/
def w4w : World where
  resolverResolve := fun _ => .noAnswer
  defaultResolve := fun _ => .nxdomain
  crt := .response 200 (.records [⟨some "www.example.com"⟩])
  sublist3r := .exc
  amass := .exc
  assetfinder := .exc

/-- Witness for C4 at the concrete world `w4w`, the domain
"example.com", the single field "www.example.com" and the resulting
candidate set. -/
theorem C4_witness :
    "www.example.com" ∈ ({"www.example.com"} : Finset String) ↔
      ∃ nv ∈ ["www.example.com"], ∃ e ∈ pySplitComma nv,
        strIn "example.com" e = true ∧ "www.example.com" = pyStrip e :=
  C4_crt_extraction.1 w4w "example.com" ["www.example.com"] {"www.example.com"}
    rfl rfl "www.example.com"

/-- C5: whenever the analysis reports "Subdomains found:" with the list
`l`, that list is sorted by the lexicographic string order and has no
duplicate entries — in particular a name contributed by several sources
appears exactly once, since the sources accumulate into one set. -/
theorem C5_report_sorted_nodup (w : World) (d : String) (l : List String)
    (h : analyze_domain_and_subdomains w d = .ok (.found l)) :
    l.Sorted (· ≤ ·) ∧ l.Nodup := by
  unfold analyze_domain_and_subdomains at h
  split at h
  · exact nomatch h
  split at h
  · exact nomatch h
  split at h
  · exact nomatch h
  dsimp only at h
  split at h
  · simp at h
  · have hl := Report.found.inj (Except.ok.inj h)
    rw [← hl]
    exact ⟨pysorted_sorted _, pysorted_nodup _⟩

/- World for the C5 witness: the apex domain resolves, and crt.sh also
returns the apex itself, so two sources contribute the same name. -/
def w5w : World where
  resolverResolve := fun _ => .success
  defaultResolve := fun _ => .nxdomain
  crt := .response 200 (.records [⟨some "example.com"⟩])
  sublist3r := .exc
  amass := .exc
  assetfinder := .exc

/-- Witness for C5 at the concrete world `w5w`: the DNS source and the
certificate-log source both contribute "example.com", and the report is
the sorted duplicate-free list ["example.com"]. -/
theorem C5_witness :
    (["example.com"] : List String).Sorted (· ≤ ·) ∧
      (["example.com"] : List String).Nodup :=
  C5_report_sorted_nodup w5w "example.com" ["example.com"] rfl

/-- C6: whenever `brute_force_subdomains` returns a set, a name is in it
exactly when it is `sub ++ "." ++ domain` for one of the twelve fixed
labels and its address-record lookup succeeded. -/
theorem C6_brute_force_characterization (w : World) (d : String) (S : Finset String)
    (h : brute_force_subdomains w d = .ok S) (x : String) :
    x ∈ S ↔ ∃ sub ∈ known_subdomains, x = sub ++ "." ++ d ∧
      w.defaultResolve x = .success := by
  rw [brute_loop_mem w d known_subdomains ∅ S h x]
  simp only [Finset.not_mem_empty, false_or]
  constructor
  · rintro ⟨sub, hsub, rfl, hres⟩
    exact ⟨sub, hsub, rfl, hres⟩
  · rintro ⟨sub, hsub, rfl, hres⟩
    exact ⟨sub, hsub, rfl, hres⟩

/- World for the C6 witness: exactly www.example.com resolves under the
module-level resolver. -/
def w6w : World where
  resolverResolve := fun _ => .noAnswer
  defaultResolve := fun name => if name = "www.example.com" then .success else .nxdomain
  crt := .requestExc
  sublist3r := .exc
  amass := .exc
  assetfinder := .exc

/-- Witness for C6 at the concrete world `w6w`, where the probe finds
exactly www.example.com. -/
theorem C6_witness :
    "www.example.com" ∈ ({"www.example.com"} : Finset String) ↔
      ∃ sub ∈ known_subdomains, "www.example.com" = sub ++ "." ++ "example.com" ∧
        w6w.defaultResolve "www.example.com" = .success :=
  C6_brute_force_characterization w6w "example.com" {"www.example.com"} (by decide)
    "www.example.com"

/- World for the C7 counterexample: Sublist3r starts, prints an empty
interior line, and exits with status 1. -/
def w7c : World where
  resolverResolve := fun _ => .noAnswer
  defaultResolve := fun _ => .nxdomain
  crt := .requestExc
  sublist3r := .ran 1 "a\n\nb"
  amass := .exc
  assetfinder := .exc

/-- C7, counterexample: in the world `w7c` the Sublist3r subprocess exits
with status 1 and stdout "a\n\nb", yet the runner returns a non-empty set
(the exit status raises nothing because `check` is not set), and that set
contains the empty line "" (`splitlines` keeps interior empty lines and
nothing filters them) — against both halves of the claim. -/
theorem C7_counterexample :
    "" ∈ run_sublist3r w7c "example.com" ∧ run_sublist3r w7c "example.com" ≠ ∅ := by
  constructor
  · decide
  · decide

/-- C7, amended: whenever the subprocess starts, each runner returns the
set of all lines of its captured standard output — empty interior lines
included and whatever the exit status; only when starting the subprocess
raises an exception does the runner log the failure and return the empty
set. -/
theorem C7_runner_characterization (w : World) (d : String) :
    ((∀ x, x ∈ run_sublist3r w d ↔
        ∃ code out, w.sublist3r = .ran code out ∧ x ∈ pySplitlines out) ∧
      (w.sublist3r = .exc → run_sublist3r w d = ∅)) ∧
    ((∀ x, x ∈ run_amass w d ↔
        ∃ code out, w.amass = .ran code out ∧ x ∈ pySplitlines out) ∧
      (w.amass = .exc → run_amass w d = ∅)) ∧
    ((∀ x, x ∈ run_assetfinder w d ↔
        ∃ code out, w.assetfinder = .ran code out ∧ x ∈ pySplitlines out) ∧
      (w.assetfinder = .exc → run_assetfinder w d = ∅)) := by
  refine ⟨⟨?_, ?_⟩, ⟨?_, ?_⟩, ⟨?_, ?_⟩⟩
  · intro x
    unfold run_sublist3r
    cases hs : w.sublist3r with
    | ran code out =>
      simp only [List.mem_toFinset]
      constructor
      · intro hx
        exact ⟨code, out, rfl, hx⟩
      · rintro ⟨c2, o2, heq, hx⟩
        injection heq with h1 h2
        subst h2
        exact hx
    | exc => simp
  · intro he
    unfold run_sublist3r
    rw [he]
  · intro x
    unfold run_amass
    cases hs : w.amass with
    | ran code out =>
      simp only [List.mem_toFinset]
      constructor
      · intro hx
        exact ⟨code, out, rfl, hx⟩
      · rintro ⟨c2, o2, heq, hx⟩
        injection heq with h1 h2
        subst h2
        exact hx
    | exc => simp
  · intro he
    unfold run_amass
    rw [he]
  · intro x
    unfold run_assetfinder
    cases hs : w.assetfinder with
    | ran code out =>
      simp only [List.mem_toFinset]
      constructor
      · intro hx
        exact ⟨code, out, rfl, hx⟩
      · rintro ⟨c2, o2, heq, hx⟩
        injection heq with h1 h2
        subst h2
        exact hx
    | exc => simp
  · intro he
    unfold run_assetfinder
    rw [he]

/-- Witness for C7 at the concrete world `baseWorld`, in which no tool
executable can be started: the Sublist3r runner contributes the empty
set. -/
theorem C7_witness : run_sublist3r baseWorld "example.com" = ∅ :=
  (C7_runner_characterization baseWorld "example.com").1.2 rfl

/- World for the C8 counterexample: Sublist3r emits one line with
surrounding blanks. -/
def w8c : World where
  resolverResolve := fun _ => .noAnswer
  defaultResolve := fun _ => .nxdomain
  crt := .requestExc
  sublist3r := .ran 0 "  padded.example.com  \n"
  amass := .exc
  assetfinder := .exc

/-- C8, counterexample: in the world `w8c` a tool line with surrounding
blanks reaches the final aggregate unchanged — the report holds
"  padded.example.com  ", which differs from its own stripped form, so
not every member of the aggregate is trimmed before insertion. -/
theorem C8_counterexample :
    analyze_domain_and_subdomains w8c "example.com" =
        .ok (.found ["  padded.example.com  "]) ∧
      pyStrip "  padded.example.com  " ≠ "  padded.example.com  " := by
  constructor
  · rfl
  · decide

/-- C8, amended: trimming happens only in the certificate-log client:
every member of a set returned by `get_crt_sh_subdomains` equals its own
stripped form (each entry is stripped before insertion and stripping is
idempotent); names from the DNS sources are inserted as constructed and
tool output lines are inserted verbatim. -/
theorem C8_crt_members_trimmed (w : World) (d : String) (S : Finset String)
    (h : get_crt_sh_subdomains w d = .ok S) :
    ∀ x ∈ S, pyStrip x = x := by
  intro x hx
  unfold get_crt_sh_subdomains at h
  split at h
  · cases h
    exact absurd hx (Finset.not_mem_empty x)
  split at h
  · split at h
    · cases h
      exact absurd hx (Finset.not_mem_empty x)
    · exact nomatch h
    · rcases (crt_loop_mem d _ ∅ S h x).mp hx with hempty | ⟨r, _, nv, _, he⟩
      · exact absurd hempty (Finset.not_mem_empty x)
      · rcases mem_crt_entries.mp he with ⟨e, _, _, rfl⟩
        exact pyStrip_idem e
  · cases h
    exact absurd hx (Finset.not_mem_empty x)

/- World for the C8 witness: crt.sh returns one record with blanks
around the name. -/
def w8w : World where
  resolverResolve := fun _ => .noAnswer
  defaultResolve := fun _ => .nxdomain
  crt := .response 200 (.records [⟨some " www.example.com "⟩])
  sublist3r := .exc
  amass := .exc
  assetfinder := .exc

/-- Witness for C8 at the concrete world `w8w`: the certificate-log set
is { "www.example.com" } and its member is its own stripped form. -/
theorem C8_witness : pyStrip "www.example.com" = "www.example.com" :=
  C8_crt_members_trimmed w8w "example.com" {"www.example.com"} rfl
    "www.example.com" (by decide)

/- World for the C9 counterexample: only Sublist3r produces output. -/
def w9c : World where
  resolverResolve := fun _ => .noAnswer
  defaultResolve := fun _ => .nxdomain
  crt := .requestExc
  sublist3r := .ran 0 "x.example.com"
  amass := .exc
  assetfinder := .exc

/-- C9, counterexample: the two files are not functionally identical.
In the world `w9c` the Sublist3r tool emits x.example.com; domain.py
reports it, while domain1.py — which has no tool runners — reports that
no subdomains were found. -/
theorem C9_counterexample :
    analyze_domain_and_subdomains w9c "example.com" = .ok (.found ["x.example.com"]) ∧
      Domain1.analyze_domain_and_subdomains w9c "example.com" = .ok .noSubdomains ∧
      Report.found ["x.example.com"] ≠ Report.noSubdomains := by
  refine ⟨rfl, rfl, ?_⟩
  decide

/-- C9, amended: the direct-DNS, dictionary and certificate-log sources
of the two files are functionally identical, and the two analyses agree
on every world in which each of the three external tool runners of
domain.py contributes the empty set (domain1.py simply has no tool
runners). -/
theorem C9_equivalence :
    (∀ (w : World) (d : String), Domain1.get_subdomains w d = get_subdomains w d) ∧
    (∀ (w : World) (d : String),
      Domain1.brute_force_subdomains w d = brute_force_subdomains w d) ∧
    (∀ (w : World) (d : String),
      Domain1.get_crt_sh_subdomains w d = get_crt_sh_subdomains w d) ∧
    (∀ (w : World) (d : String), run_sublist3r w d = ∅ → run_amass w d = ∅ →
      run_assetfinder w d = ∅ →
      Domain1.analyze_domain_and_subdomains w d = analyze_domain_and_subdomains w d) := by
  refine ⟨d1_get_subdomains_eq, d1_brute_force_eq, d1_crt_eq, ?_⟩
  intro w d h1 h2 h3
  unfold Domain1.analyze_domain_and_subdomains analyze_domain_and_subdomains
  simp only [d1_get_subdomains_eq, d1_brute_force_eq, d1_crt_eq, h1, h2, h3,
    Finset.union_empty]

/- World for the C9 witness: the apex resolves and no tool is
installed. -/
def w9w : World where
  resolverResolve := fun _ => .success
  defaultResolve := fun _ => .nxdomain
  crt := .requestExc
  sublist3r := .exc
  amass := .exc
  assetfinder := .exc

/-- Witness for C9 at the concrete world `w9w`, where every tool runner
contributes the empty set: the two analyses agree. -/
theorem C9_witness :
    Domain1.analyze_domain_and_subdomains w9w "example.com" =
      analyze_domain_and_subdomains w9w "example.com" :=
  C9_equivalence.2.2.2 w9w "example.com" rfl rfl rfl

/-- C10: the direct-resolution source returns a subset of the singleton
{domain} — the apex itself on a successful lookup and nothing otherwise —
and when the apex resolves and the analysis completes, the apex appears
in the "Subdomains found:" report under its own name. -/
theorem C10_get_subdomains_apex (w : World) (d : String) :
    (∀ S, get_subdomains w d = .ok S →
      S ⊆ {d} ∧ (d ∈ S ↔ w.resolverResolve d = .success)) ∧
    (∀ r, w.resolverResolve d = .success → analyze_domain_and_subdomains w d = .ok r →
      ∃ l, r = .found l ∧ d ∈ l) := by
  constructor
  · intro S h
    unfold get_subdomains at h
    cases hr : w.resolverResolve d <;> rw [hr] at h <;> cases h <;> simp [hr]
  · intro r hsucc h
    have h1 : get_subdomains w d = .ok {d} := by
      unfold get_subdomains
      rw [hsucc]
    unfold analyze_domain_and_subdomains at h
    simp only [h1] at h
    split at h
    · exact nomatch h
    split at h
    · exact nomatch h
    split at h
    · rename_i hne
      rw [Finset.eq_empty_iff_forall_not_mem] at hne
      exact absurd (by simp) (hne d)
    · have hr := (Except.ok.inj h).symm
      subst hr
      refine ⟨_, rfl, (pysorted_mem _ d).mpr ?_⟩
      simp

/- World for the C10 witness: the apex resolves, nothing else. -/
def w10w : World where
  resolverResolve := fun _ => .success
  defaultResolve := fun _ => .nxdomain
  crt := .requestExc
  sublist3r := .exc
  amass := .exc
  assetfinder := .exc

/-- Witness for C10 at the concrete world `w10w`: the source returns
{ "example.com" }, a subset of the singleton, and membership holds
because the lookup succeeded. -/
theorem C10_witness :
    ({"example.com"} : Finset String) ⊆ {"example.com"} ∧
      ("example.com" ∈ ({"example.com"} : Finset String) ↔
        w10w.resolverResolve "example.com" = .success) :=
  (C10_get_subdomains_apex w10w "example.com").1 {"example.com"} rfl
